import Mathlib

/-!
Shallow embedding of the Bitcoin-mining projection calculator in
`src/start_app.py`, together with theorems about its simulation engine,
scenario-timeline operations and result store.

Modelling conventions:
* Python floats are modelled by `ℚ` (exact rational arithmetic).
* Python `int(x)` (truncation toward zero) is `pyint`.
* Python `a // b` on floats is `⌊a / b⌋ : ℤ`.
* The Streamlit handler for the «Рассчитать» button (lines 277-392) is the
  pure function `simulate`; the externally fetched figures
  (`daily_profit_per_asic_rub`, `daily_cost_per_asic_rub`, `usd_rub`,
  `btc_usd`, lines 280-296) are carried in `Params` as already-resolved
  inputs, exactly as they appear at the top of the monthly loop.
* Division by zero is total in `ℚ` (`x / 0 = 0`); the corresponding Python
  code raises there, so theorems that need the distinction carry positivity
  hypotheses.
-/

/-- Python `int()` on a float: truncation toward zero. -/
def pyint (q : ℚ) : ℤ := if 0 ≤ q then ⌊q⌋ else ⌈q⌉

/-- One entry of `st.session_state.scenarios` (a dict with keys
`start`, `end`, `reinvest`, `wallet`; lines 159-174). -/
structure Scenario where
  start : ℕ
  «end» : ℕ
  reinvest : ℕ
  wallet : ℕ
deriving DecidableEq

/-- The numeric inputs of the «Рассчитать» handler, after the external
price/yield lookups have been resolved (lines 223-229, 280-296, 311). -/
structure Params where
  asic_count : ℤ
  asic_price : ℚ
  usd_rub : ℚ
  btc_usd : ℚ
  daily_profit_per_asic_rub : ℚ
  daily_cost_per_asic_rub : ℚ
  show_in_usd : Bool
  scenarios : List Scenario
deriving DecidableEq

/-- The mutable accumulators of the monthly loop (lines 298-308). -/
structure SimState where
  current_asics : ℤ
  savings : ℚ
  wallet_btc : ℚ
  cumulative_profit : ℚ
  break_even_month : Option ℕ
deriving DecidableEq

/-- One row appended to `results` (lines 363-387).  Integer fields hold the
`int(...)`-truncated display values recorded by the code; `wallet_btc`
holds the running BTC balance from which the «Кошелек» string is built. -/
structure LedgerRow where
  month : ℕ
  asic : ℤ
  income : ℤ
  expenses : ℤ
  profit : ℤ
  salary : ℤ
  reinvest : ℤ
  to_wallet : ℤ
  savings : ℤ
  wallet_btc : ℚ
deriving DecidableEq

/-- `total_investment = asic_count * asic_price * usd_rub` (line 305). -/
def total_investment (p : Params) : ℚ :=
  (p.asic_count : ℚ) * p.asic_price * p.usd_rub

/-- `initial_investment = asic_count * asic_price * (usd_rub if not
show_in_usd else 1)` (line 401). -/
def initial_investment (p : Params) : ℚ :=
  (p.asic_count : ℚ) * p.asic_price * (if p.show_in_usd then 1 else p.usd_rub)

/-- `total_months = max(s["end"] for s in scenarios) if scenarios else 12`
(line 311). -/
def total_months (scenarios : List Scenario) : ℕ :=
  if scenarios = [] then 12
  else scenarios.foldl (fun acc s => max acc s.«end») 0

/-- The scenario lookup of lines 315-319: the first scenario (in list
order) whose `[start, end]` range contains the month, else `none`. -/
def active_scenario (scenarios : List Scenario) (month : ℕ) : Option Scenario :=
  scenarios.find? fun s => decide (s.start ≤ month ∧ month ≤ s.«end»)

/-- Whether some scenario covers the month. -/
def covered (scenarios : List Scenario) (month : ℕ) : Bool :=
  (active_scenario scenarios month).isSome

/-- The profit distribution of lines 333-337:
`(to_reinvest, salary, to_wallet, to_asics)`. -/
def split_profit (profit reinvest_percent wallet_percent : ℚ) : ℚ × ℚ × ℚ × ℚ :=
  let to_reinvest := profit * (reinvest_percent / 100)
  let salary := profit - to_reinvest
  let to_wallet := to_reinvest * (wallet_percent / 100)
  let to_asics := to_reinvest - to_wallet
  (to_reinvest, salary, to_wallet, to_asics)

/-- One iteration of the monthly loop (lines 313-387).  A month without an
active scenario is skipped (`continue`, line 322): the state is unchanged
and no row is appended. -/
def month_step (p : Params) (month : ℕ) (st : SimState) : SimState × Option LedgerRow :=
  match active_scenario p.scenarios month with
  | none => (st, none)
  | some active =>
    let reinvest_percent : ℚ := (active.reinvest : ℚ)
    let wallet_percent : ℚ := (active.wallet : ℚ)
    let profit := p.daily_profit_per_asic_rub * 30 * (st.current_asics : ℚ)
    let cost := p.daily_cost_per_asic_rub * 30 * (st.current_asics : ℚ)
    let parts := split_profit profit reinvest_percent wallet_percent
    let to_reinvest := parts.1
    let salary := parts.2.1
    let to_wallet := parts.2.2.1
    let to_asics := parts.2.2.2
    let savings := st.savings + to_asics
    let btc_amount := to_wallet / p.usd_rub / p.btc_usd
    let wallet_btc := st.wallet_btc + btc_amount
    let new_asics : ℤ := ⌊savings / (p.asic_price * p.usd_rub)⌋
    let current_asics : ℤ :=
      if 0 < new_asics then st.current_asics + new_asics else st.current_asics
    let savings2 : ℚ :=
      if 0 < new_asics then savings - (new_asics : ℚ) * p.asic_price * p.usd_rub
      else savings
    let cumulative_profit := st.cumulative_profit + profit
    let break_even_month : Option ℕ :=
      if total_investment p ≤ cumulative_profit ∧ st.break_even_month = none
      then some month else st.break_even_month
    let row : LedgerRow :=
      if p.show_in_usd then
        { month := month, asic := current_asics,
          income := pyint (profit / p.usd_rub + cost / p.usd_rub),
          expenses := pyint (cost / p.usd_rub),
          profit := pyint (profit / p.usd_rub),
          salary := pyint (salary / p.usd_rub),
          reinvest := pyint (to_reinvest / p.usd_rub),
          to_wallet := pyint (to_wallet / p.usd_rub),
          savings := pyint (savings2 / p.usd_rub),
          wallet_btc := wallet_btc }
      else
        { month := month, asic := current_asics,
          income := pyint (profit + cost),
          expenses := pyint cost,
          profit := pyint profit,
          salary := pyint salary,
          reinvest := pyint to_reinvest,
          to_wallet := pyint to_wallet,
          savings := pyint savings2,
          wallet_btc := wallet_btc }
    ({ current_asics := current_asics, savings := savings2, wallet_btc := wallet_btc,
       cumulative_profit := cumulative_profit, break_even_month := break_even_month },
     some row)

/-- Runs `month_step` over a list of months, threading the state and
collecting the appended rows in order. -/
def run_months (p : Params) : List ℕ → SimState → SimState × List LedgerRow
  | [], st => (st, [])
  | m :: ms, st =>
    let step := month_step p m st
    let rest := run_months p ms step.1
    (rest.1, step.2.toList ++ rest.2)

/-- Initial accumulators (lines 298-308). -/
def init_state (p : Params) : SimState :=
  { current_asics := p.asic_count, savings := 0, wallet_btc := 0,
    cumulative_profit := 0, break_even_month := none }

/-- `range(1, total_months + 1)` (line 313). -/
def months_list (p : Params) : List ℕ :=
  List.range' 1 (total_months p.scenarios)

/-- The whole «Рассчитать» computation: final state (with the inline
break-even month) and the produced ledger rows. -/
def simulate (p : Params) : SimState × List LedgerRow :=
  run_months p (months_list p) (init_state p)

/-- Running cumulative sums (`pandas.cumsum`, line 418): entry `i` is
`acc` plus the sum of the first `i + 1` elements. -/
def cumsum (acc : ℤ) : List ℤ → List ℤ
  | [] => []
  | x :: xs => (acc + x) :: cumsum (acc + x) xs

/-- The post-pass loop of lines 419-423: walk the rows in order, look the
cumulative profit up at index `месяц - 1`, and stop at the first row whose
cumulative profit reaches the investment.  (An out-of-range lookup raises
`KeyError` in the source; it is unreachable when the recorded months are
exactly `1..n`, which is the only case the source produces indexable
frames for.) -/
def dirty_post_loop (cum : List ℤ) (inv : ℚ) : List LedgerRow → Option ℕ
  | [] => none
  | r :: rs =>
    match cum[r.month - 1]? with
    | some c => if inv ≤ (c : ℚ) then some r.month else dirty_post_loop cum inv rs
    | none => none

/-- The post-pass dirty break-even computation (lines 417-423). -/
def dirty_break_even_month (p : Params) (rows : List LedgerRow) : Option ℕ :=
  dirty_post_loop (cumsum 0 (rows.map LedgerRow.profit)) (initial_investment p) rows

/-- Reference walk used to relate the inline and post-pass break-even
computations: first month whose running total reaches `inv`. -/
def first_reach (inv : ℚ) : ℤ → List (ℕ × ℤ) → Option ℕ
  | _, [] => none
  | c, (m, q) :: rest =>
    if inv ≤ ((c + q : ℤ) : ℚ) then some m else first_reach inv (c + q) rest

/-- `add_scenario` (lines 159-174). -/
def add_scenario (scenarios : List Scenario) : List Scenario :=
  match scenarios.getLast? with
  | none => scenarios ++ [{ start := 1, «end» := 12, reinvest := 50, wallet := 10 }]
  | some last =>
      scenarios ++
        [{ start := last.«end» + 1, «end» := last.«end» + 12, reinvest := 50, wallet := 10 }]

/-- The renumbering loop of lines 179-184: scenario `0` starts at month 1,
every later scenario starts right after the (already renumbered) previous
one, and every `end` is forced to `start + 11`. -/
def renumber_scenarios : ℕ → List Scenario → List Scenario
  | _, [] => []
  | start, s :: rest =>
    { s with start := start, «end» := start + 11 } :: renumber_scenarios (start + 12) rest

/-- `remove_scenario` (lines 176-184): `pop(index)` then renumber. -/
def remove_scenario (scenarios : List Scenario) (index : ℕ) : List Scenario :=
  renumber_scenarios 1 (scenarios.eraseIdx index)

/-- One saved entry of `st.session_state.saved_results` (lines 485-500);
the timestamp string is passed in since `datetime.now()` is ambient I/O. -/
structure SavedResult where
  timestamp : String
  data : List LedgerRow
  params : Params
deriving DecidableEq

/-- Python `str.strip()`: drop whitespace from both ends (structurally
recursive so that concrete saves evaluate). -/
def py_strip (s : String) : String :=
  ⟨((s.data.dropWhile Char.isWhitespace).reverse.dropWhile Char.isWhitespace).reverse⟩

/-- The save-form submit handler (lines 480-504), on the store as an
insertion-ordered association list (Python dict semantics).  Returns the
reported error message or the updated store. -/
def save_result (saved_results : List (String × SavedResult)) (result_name : String)
    (entry : SavedResult) : Except String (List (String × SavedResult)) :=
  if py_strip result_name ≠ "" then
    if (saved_results.map Prod.fst).contains result_name then
      Except.error "Результат с таким названием уже существует!"
    else
      Except.ok (saved_results ++ [(result_name, entry)])
  else
    Except.error "Введите название для сохранения"

/-- `min_value` of the «Количество ASIC» widget (line 223). -/
def asic_count_min : ℤ := 1

/-- `min_value` of the «Стоимость 1 ASIC» widget (line 226). -/
def asic_price_min : ℚ := 1

/-! ### Concrete inputs used by counterexamples and witnesses -/

/-- A non-empty timeline whose single segment starts at month 2, leaving
month 1 uncovered. -/
def pGap1 : Params :=
  { asic_count := 1, asic_price := 1, usd_rub := 1, btc_usd := 1,
    daily_profit_per_asic_rub := 0, daily_cost_per_asic_rub := 0,
    show_in_usd := false, scenarios := [⟨2, 12, 50, 10⟩] }

/-- A timeline whose single segment starts at month 3: months 1 and 2 fall
in a gap. -/
def pGap2 : Params :=
  { asic_count := 1, asic_price := 1, usd_rub := 1, btc_usd := 1,
    daily_profit_per_asic_rub := 0, daily_cost_per_asic_rub := 0,
    show_in_usd := false, scenarios := [⟨3, 12, 50, 10⟩] }

/-- Fractional monthly profit (3000.9 per month), investment 9002: the
inline break-even sees 9002.7 at month 3, the post-pass over truncated
row profits only reaches 9002 at month 4. -/
def pC3x : Params :=
  { asic_count := 1, asic_price := 9002, usd_rub := 1, btc_usd := 1,
    daily_profit_per_asic_rub := 10003/100, daily_cost_per_asic_rub := 0,
    show_in_usd := false, scenarios := [⟨1, 4, 0, 0⟩] }

/-- Whole-number native profits: the hypotheses of the amended C3 claim
hold here. -/
def pW3 : Params :=
  { asic_count := 1, asic_price := 500, usd_rub := 90, btc_usd := 50000,
    daily_profit_per_asic_rub := 100, daily_cost_per_asic_rub := 0,
    show_in_usd := false, scenarios := [⟨1, 12, 50, 10⟩] }

/-- Negative daily profit (possible upstream: the whattomine `profit`
field can be negative): savings goes negative. -/
def pC4neg : Params :=
  { asic_count := 1, asic_price := 500, usd_rub := 90, btc_usd := 1,
    daily_profit_per_asic_rub := -1, daily_cost_per_asic_rub := 0,
    show_in_usd := false, scenarios := [⟨1, 1, 100, 0⟩] }

/-- Non-negative profits and in-range percentages for the savings-bound
witness. -/
def pW4 : Params :=
  { asic_count := 1, asic_price := 500, usd_rub := 90, btc_usd := 50000,
    daily_profit_per_asic_rub := 4000, daily_cost_per_asic_rub := 0,
    show_in_usd := false, scenarios := [⟨1, 3, 50, 10⟩] }

/-- The worked example of the spec: 1 unit, price 500 at fx 90 (45000
native), daily profit 100 native, reinvest 50 %, wallet 10 %, 12 months. -/
def pC5 : Params :=
  { asic_count := 1, asic_price := 500, usd_rub := 90, btc_usd := 50000,
    daily_profit_per_asic_rub := 100, daily_cost_per_asic_rub := 0,
    show_in_usd := false, scenarios := [⟨1, 12, 50, 10⟩] }

/-- A three-segment timeline with a user-edited 18-month second segment. -/
def scs3 : List Scenario := [⟨1, 12, 50, 10⟩, ⟨13, 30, 20, 5⟩, ⟨31, 42, 70, 15⟩]

/-- Unit count 0 (below every widget minimum): the simulation still runs. -/
def pC7 : Params :=
  { asic_count := 0, asic_price := 1, usd_rub := 1, btc_usd := 1,
    daily_profit_per_asic_rub := 0, daily_cost_per_asic_rub := 0,
    show_in_usd := false, scenarios := [⟨1, 12, 50, 10⟩] }

/-- Parameters recorded inside the stored entry used by the save-form
witness. -/
def pStore : Params :=
  { asic_count := 1, asic_price := 500, usd_rub := 90, btc_usd := 50000,
    daily_profit_per_asic_rub := 100, daily_cost_per_asic_rub := 0,
    show_in_usd := false, scenarios := [⟨1, 12, 50, 10⟩] }

/-- A stored entry. -/
def entry0 : SavedResult :=
  { timestamp := "2024-01-01T00:00:00", data := [], params := pStore }

/-- A store already holding the name «Результат 1». -/
def store0 : List (String × SavedResult) := [("Результат 1", entry0)]

/-- Positive economics for the wallet-monotonicity witness. -/
def pW10 : Params :=
  { asic_count := 1, asic_price := 500, usd_rub := 90, btc_usd := 50000,
    daily_profit_per_asic_rub := 100, daily_cost_per_asic_rub := 0,
    show_in_usd := false, scenarios := [⟨1, 6, 50, 10⟩, ⟨7, 12, 80, 20⟩] }

/-! ### Lemmas about the embedding

`Rat.add`/`Rat.mul`/`Rat.inv`/`Rat.sub` are `@[irreducible]` in Batteries,
which blocks `decide` from evaluating concrete runs; re-enable unfolding
locally (the kernel ignores reducibility either way). -/

attribute [local semireducible] Rat.mul Rat.inv Rat.add Rat.sub

theorem pyint_intCast (n : ℤ) : pyint ((n : ℤ) : ℚ) = n := by
  unfold pyint; split <;> simp

theorem pyint_nonneg {q : ℚ} (h : 0 ≤ q) : 0 ≤ pyint q := by
  unfold pyint; rw [if_pos h]; exact Int.floor_nonneg.mpr h

theorem pyint_le {q : ℚ} (h : 0 ≤ q) : (pyint q : ℚ) ≤ q := by
  unfold pyint; rw [if_pos h]; exact Int.floor_le q

theorem month_step_none {p : Params} {m : ℕ} (st : SimState)
    (h : active_scenario p.scenarios m = none) : month_step p m st = (st, none) := by
  simp [month_step, h]

theorem month_step_month {p : Params} {m : ℕ} {sc : Scenario} (st : SimState)
    (h : active_scenario p.scenarios m = some sc) :
    (month_step p m st).2.map LedgerRow.month = some m := by
  simp only [month_step, h]
  cases hu : p.show_in_usd <;> simp [hu]

theorem run_months_nil {p : Params} (st : SimState) : run_months p [] st = (st, []) := rfl

theorem run_months_cons {p : Params} (m : ℕ) (ms : List ℕ) (st : SimState) :
    run_months p (m :: ms) st =
      ((run_months p ms (month_step p m st).1).1,
       (month_step p m st).2.toList ++ (run_months p ms (month_step p m st).1).2) := rfl

theorem run_map_month (p : Params) :
    ∀ (ms : List ℕ) (st : SimState),
      (run_months p ms st).2.map LedgerRow.month =
        ms.filter (fun m => covered p.scenarios m)
  | [], st => by simp [run_months_nil]
  | m :: ms, st => by
    rw [run_months_cons, List.filter_cons]
    rcases h : active_scenario p.scenarios m with _ | sc
    · rw [month_step_none st h]
      simp [covered, h, run_map_month p ms st]
    · have hm := month_step_month st h
      rcases hs : (month_step p m st).2 with _ | row
      · rw [hs] at hm; simp at hm
      · rw [hs] at hm
        simp only [Option.map, Option.some.injEq] at hm
        simp [covered, h, hs, run_map_month p ms _, hm]

theorem simulate_map_month (p : Params) :
    (simulate p).2.map LedgerRow.month =
      (months_list p).filter (fun m => covered p.scenarios m) :=
  run_map_month p _ _

theorem month_step_asics_mono (p : Params) (m : ℕ) (st : SimState) :
    st.current_asics ≤ (month_step p m st).1.current_asics := by
  rcases h : active_scenario p.scenarios m with _ | sc
  · rw [month_step_none st h]
  · simp only [month_step, h]
    split
    · omega
    · exact le_refl _

theorem month_step_asic_row (p : Params) (m : ℕ) (st : SimState) {sc : Scenario}
    (h : active_scenario p.scenarios m = some sc) :
    (month_step p m st).2.map LedgerRow.asic = some (month_step p m st).1.current_asics := by
  simp only [month_step, h]
  cases hu : p.show_in_usd <;> simp [hu]

theorem run_chain_asics (p : Params) :
    ∀ (ms : List ℕ) (st : SimState),
      List.Chain' (· ≤ ·) (st.current_asics :: (run_months p ms st).2.map LedgerRow.asic)
  | [], st => by simp [run_months_nil]
  | m :: ms, st => by
    rw [run_months_cons]
    rcases h : active_scenario p.scenarios m with _ | sc
    · rw [month_step_none st h]
      simpa using run_chain_asics p ms st
    · have ha := month_step_asic_row p m st h
      rcases hs : (month_step p m st).2 with _ | row
      · rw [hs] at ha; simp at ha
      · rw [hs] at ha
        simp only [Option.map, Option.some.injEq] at ha
        simp only [hs, Option.toList_some, List.singleton_append, List.map_cons]
        rw [List.chain'_cons, ha]
        exact ⟨month_step_asics_mono p m st, run_chain_asics p ms _⟩

theorem month_step_wallet_row (p : Params) (m : ℕ) (st : SimState) {sc : Scenario}
    (h : active_scenario p.scenarios m = some sc) :
    (month_step p m st).2.map LedgerRow.wallet_btc = some (month_step p m st).1.wallet_btc := by
  simp only [month_step, h]
  cases hu : p.show_in_usd <;> simp [hu]

theorem month_step_wallet_mono (p : Params) (m : ℕ) (st : SimState)
    (hd : 0 ≤ p.daily_profit_per_asic_rub) (hfx : 0 < p.usd_rub) (hbtc : 0 < p.btc_usd)
    (ha : 0 ≤ st.current_asics) :
    st.wallet_btc ≤ (month_step p m st).1.wallet_btc := by
  rcases h : active_scenario p.scenarios m with _ | sc
  · rw [month_step_none st h]
  · simp only [month_step, h, split_profit]
    have hprofit : (0:ℚ) ≤ p.daily_profit_per_asic_rub * 30 * (st.current_asics : ℚ) := by
      have : (0:ℚ) ≤ (st.current_asics : ℚ) := by exact_mod_cast ha
      positivity
    have hr : (0:ℚ) ≤ (sc.reinvest : ℚ) / 100 := by positivity
    have hw : (0:ℚ) ≤ (sc.wallet : ℚ) / 100 := by positivity
    have hto : (0:ℚ) ≤ p.daily_profit_per_asic_rub * 30 * (st.current_asics : ℚ) *
        ((sc.reinvest : ℚ) / 100) * ((sc.wallet : ℚ) / 100) := by
      exact mul_nonneg (mul_nonneg hprofit hr) hw
    have : (0:ℚ) ≤ p.daily_profit_per_asic_rub * 30 * (st.current_asics : ℚ) *
        ((sc.reinvest : ℚ) / 100) * ((sc.wallet : ℚ) / 100) / p.usd_rub / p.btc_usd := by
      exact div_nonneg (div_nonneg hto hfx.le) hbtc.le
    linarith

theorem run_chain_wallet (p : Params)
    (hd : 0 ≤ p.daily_profit_per_asic_rub) (hfx : 0 < p.usd_rub) (hbtc : 0 < p.btc_usd) :
    ∀ (ms : List ℕ) (st : SimState), 0 ≤ st.current_asics →
      List.Chain' (· ≤ ·) (st.wallet_btc :: (run_months p ms st).2.map LedgerRow.wallet_btc)
  | [], st, _ => by simp [run_months_nil]
  | m :: ms, st, ha => by
    have ha1 : 0 ≤ (month_step p m st).1.current_asics :=
      ha.trans (month_step_asics_mono p m st)
    rw [run_months_cons]
    rcases h : active_scenario p.scenarios m with _ | sc
    · rw [month_step_none st h]
      simpa using run_chain_wallet p hd hfx hbtc ms st ha
    · have hwr := month_step_wallet_row p m st h
      rcases hs : (month_step p m st).2 with _ | row
      · rw [hs] at hwr; simp at hwr
      · rw [hs] at hwr
        simp only [Option.map, Option.some.injEq] at hwr
        simp only [hs, Option.toList_some, List.singleton_append, List.map_cons]
        rw [List.chain'_cons, hwr]
        exact ⟨month_step_wallet_mono p m st hd hfx hbtc ha,
               run_chain_wallet p hd hfx hbtc ms _ ha1⟩

theorem floor_purchase_bounds {s price : ℚ} (hp : 0 < price) (hs : 0 ≤ s) :
    0 ≤ (if 0 < ⌊s / price⌋ then s - (⌊s / price⌋ : ℚ) * price else s) ∧
      (if 0 < ⌊s / price⌋ then s - (⌊s / price⌋ : ℚ) * price else s) < price := by
  split
  · constructor
    · exact Int.sub_floor_div_mul_nonneg s hp
    · exact Int.sub_floor_div_mul_lt s hp
  · refine ⟨hs, ?_⟩
    rename_i hn
    have h1 : ⌊s / price⌋ < 1 := by omega
    have h2 : s / price < 1 := by
      have := (Int.floor_lt).mp (by exact_mod_cast h1)
      simpa using this
    calc s = s / price * price := by field_simp
    _ < 1 * price := by exact mul_lt_mul_of_pos_right h2 hp
    _ = price := one_mul price

theorem month_step_savings_row (p : Params) (m : ℕ) (st : SimState) {sc : Scenario}
    (h : active_scenario p.scenarios m = some sc) :
    (month_step p m st).2.map LedgerRow.savings =
      some (if p.show_in_usd then pyint ((month_step p m st).1.savings / p.usd_rub)
            else pyint (month_step p m st).1.savings) := by
  simp only [month_step, h]
  cases hu : p.show_in_usd <;> simp [hu]

theorem month_step_savings_bounds (p : Params) (m : ℕ) (st : SimState) {sc : Scenario}
    (h : active_scenario p.scenarios m = some sc)
    (hp : 0 < p.asic_price * p.usd_rub) (hd : 0 ≤ p.daily_profit_per_asic_rub)
    (ha : 0 ≤ st.current_asics) (hw : (sc.wallet : ℚ) ≤ 100) (hs : 0 ≤ st.savings) :
    0 ≤ (month_step p m st).1.savings ∧
      (month_step p m st).1.savings < p.asic_price * p.usd_rub := by
  simp only [month_step, h, split_profit]
  have hprofit : (0:ℚ) ≤ p.daily_profit_per_asic_rub * 30 * (st.current_asics : ℚ) := by
    have : (0:ℚ) ≤ (st.current_asics : ℚ) := by exact_mod_cast ha
    positivity
  have hr : (0:ℚ) ≤ (sc.reinvest : ℚ) / 100 := by positivity
  have hA : (0:ℚ) ≤ p.daily_profit_per_asic_rub * 30 * (st.current_asics : ℚ) *
      ((sc.reinvest : ℚ) / 100) := mul_nonneg hprofit hr
  have hw1 : (sc.wallet : ℚ) / 100 ≤ 1 := by linarith
  have hmul : p.daily_profit_per_asic_rub * 30 * (st.current_asics : ℚ) *
        ((sc.reinvest : ℚ) / 100) * ((sc.wallet : ℚ) / 100) ≤
      p.daily_profit_per_asic_rub * 30 * (st.current_asics : ℚ) *
        ((sc.reinvest : ℚ) / 100) * 1 := by
    exact mul_le_mul_of_nonneg_left hw1 hA
  have hs1 : (0:ℚ) ≤ st.savings +
      (p.daily_profit_per_asic_rub * 30 * (st.current_asics : ℚ) *
          ((sc.reinvest : ℚ) / 100) -
        p.daily_profit_per_asic_rub * 30 * (st.current_asics : ℚ) *
          ((sc.reinvest : ℚ) / 100) * ((sc.wallet : ℚ) / 100)) := by linarith
  have hb := floor_purchase_bounds hp hs1
  constructor
  · have := hb.1
    split <;> split at this <;> linarith
  · have := hb.2
    split <;> split at this <;> linarith

theorem run_savings_inv (p : Params)
    (hap : 0 < p.asic_price) (hfx : 0 < p.usd_rub)
    (hd : 0 ≤ p.daily_profit_per_asic_rub)
    (hw : ∀ s ∈ p.scenarios, s.wallet ≤ 100) :
    ∀ (ms : List ℕ) (st : SimState),
      0 ≤ st.savings → st.savings < p.asic_price * p.usd_rub → 0 ≤ st.current_asics →
      (0 ≤ (run_months p ms st).1.savings ∧
        (run_months p ms st).1.savings < p.asic_price * p.usd_rub) ∧
      ∀ r ∈ (run_months p ms st).2,
        0 ≤ r.savings ∧
          (r.savings : ℚ) < p.asic_price * (if p.show_in_usd then 1 else p.usd_rub)
  | [], st, hs0, hs1, _ => by
    rw [run_months_nil]
    exact ⟨⟨hs0, hs1⟩, by simp⟩
  | m :: ms, st, hs0, hs1, ha => by
    have hprice : 0 < p.asic_price * p.usd_rub := mul_pos hap hfx
    have ha1 : 0 ≤ (month_step p m st).1.current_asics :=
      ha.trans (month_step_asics_mono p m st)
    rw [run_months_cons]
    rcases h : active_scenario p.scenarios m with _ | sc
    · rw [month_step_none st h]
      simpa using run_savings_inv p hap hfx hd hw ms st hs0 hs1 ha
    · have hsc : sc ∈ p.scenarios := List.mem_of_find?_eq_some h
      have hwsc : (sc.wallet : ℚ) ≤ 100 := by exact_mod_cast hw sc hsc
      have hb := month_step_savings_bounds p m st h hprice hd ha hwsc hs0
      have hrest := run_savings_inv p hap hfx hd hw ms (month_step p m st).1 hb.1 hb.2 ha1
      have hrow := month_step_savings_row p m st h
      rcases hs : (month_step p m st).2 with _ | row
      · rw [hs] at hrow; simp at hrow
      · rw [hs] at hrow
        simp only [Option.map, Option.some.injEq] at hrow
        refine ⟨hrest.1, ?_⟩
        intro r hr
        simp only [Option.toList_some, List.singleton_append, List.mem_cons] at hr
        rcases hr with rfl | hr
        · rw [hrow]
          cases hu : p.show_in_usd
          · simp only [hu, Bool.false_eq_true, if_false]
            exact ⟨pyint_nonneg hb.1, by linarith [pyint_le hb.1, hb.2]⟩
          · simp only [hu, eq_self_iff_true, if_true]
            have hq0 : (0:ℚ) ≤ (month_step p m st).1.savings / p.usd_rub :=
              div_nonneg hb.1 hfx.le
            have hlt : (month_step p m st).1.savings / p.usd_rub < p.asic_price := by
              rw [div_lt_iff₀ hfx]
              linarith [hb.2]
            exact ⟨pyint_nonneg hq0, by linarith [pyint_le hq0]⟩
        · exact hrest.2 r hr

theorem month_step_break_some (p : Params) (m : ℕ) (st : SimState) {b : ℕ}
    (hb : st.break_even_month = some b) :
    (month_step p m st).1.break_even_month = some b := by
  rcases h : active_scenario p.scenarios m with _ | sc
  · rw [month_step_none st h]; exact hb
  · simp [month_step, h, hb]

theorem run_break_sticky (p : Params) :
    ∀ (ms : List ℕ) (st : SimState) {b : ℕ}, st.break_even_month = some b →
      (run_months p ms st).1.break_even_month = some b
  | [], st, b, hb => by rw [run_months_nil]; exact hb
  | m :: ms, st, b, hb => by
    rw [run_months_cons]
    exact run_break_sticky p ms _ (month_step_break_some p m st hb)

theorem month_step_cumulative (p : Params) (m : ℕ) (st : SimState) {sc : Scenario}
    (h : active_scenario p.scenarios m = some sc) :
    (month_step p m st).1.cumulative_profit =
      st.cumulative_profit + p.daily_profit_per_asic_rub * 30 * (st.current_asics : ℚ) := by
  simp [month_step, h]

theorem month_step_break_none (p : Params) (m : ℕ) (st : SimState) {sc : Scenario}
    (h : active_scenario p.scenarios m = some sc) (hb : st.break_even_month = none) :
    (month_step p m st).1.break_even_month =
      if total_investment p ≤
          st.cumulative_profit + p.daily_profit_per_asic_rub * 30 * (st.current_asics : ℚ)
      then some m else none := by
  simp [month_step, h, hb]

theorem month_step_profit_row (p : Params) (m : ℕ) (st : SimState) {sc : Scenario}
    (h : active_scenario p.scenarios m = some sc) (hn : p.show_in_usd = false) :
    (month_step p m st).2.map LedgerRow.profit =
      some (pyint (p.daily_profit_per_asic_rub * 30 * (st.current_asics : ℚ))) := by
  simp [month_step, h, hn]

theorem run_inline_char (p : Params) (d : ℤ) (hn : p.show_in_usd = false)
    (hd : p.daily_profit_per_asic_rub = (d : ℚ)) :
    ∀ (ms : List ℕ) (st : SimState) (c : ℤ),
      st.cumulative_profit = (c : ℚ) → st.break_even_month = none →
      (∀ m ∈ ms, covered p.scenarios m = true) →
      (run_months p ms st).1.break_even_month =
        first_reach (total_investment p) c
          ((run_months p ms st).2.map fun r => (r.month, r.profit))
  | [], st, c, _, hb, _ => by
    rw [run_months_nil]; simpa [first_reach] using hb
  | m :: ms, st, c, hc, hb, hcov => by
    have hcovm : covered p.scenarios m = true := hcov m (by simp)
    obtain ⟨sc, h⟩ : ∃ sc, active_scenario p.scenarios m = some sc := by
      rcases hx : active_scenario p.scenarios m with _ | sc
      · rw [covered, hx] at hcovm; simp at hcovm
      · exact ⟨sc, rfl⟩
    have hprofit : p.daily_profit_per_asic_rub * 30 * (st.current_asics : ℚ) =
        ((d * 30 * st.current_asics : ℤ) : ℚ) := by
      rw [hd]; push_cast; ring
    have hrowp := month_step_profit_row p m st h hn
    have hrowm := month_step_month st h
    rcases hs : (month_step p m st).2 with _ | row
    · rw [hs] at hrowm; simp at hrowm
    · rw [hs] at hrowm hrowp
      simp only [Option.map, Option.some.injEq] at hrowm hrowp
      have hrp : row.profit = d * 30 * st.current_asics := by
        rw [hrowp, hprofit, pyint_intCast]
      have hcum1 : (month_step p m st).1.cumulative_profit =
          ((c + d * 30 * st.current_asics : ℤ) : ℚ) := by
        rw [month_step_cumulative p m st h, hc, hprofit]; push_cast; ring
      have hbreak1 := month_step_break_none p m st h hb
      rw [run_months_cons, hs]
      simp only [Option.toList_some, List.singleton_append, List.map_cons, hrowm, hrp]
      simp only [first_reach]
      by_cases hle : total_investment p ≤ ((c + d * 30 * st.current_asics : ℤ) : ℚ)
      · rw [if_pos hle]
        have hsome : (month_step p m st).1.break_even_month = some m := by
          rw [hbreak1, hc, hprofit, if_pos (by push_cast at hle ⊢; linarith)]
        exact run_break_sticky p ms _ hsome
      · rw [if_neg hle]
        have hb1 : (month_step p m st).1.break_even_month = none := by
          rw [hbreak1, hc, hprofit, if_neg (by push_cast at hle ⊢; linarith)]
        exact run_inline_char p d hn hd ms _ (c + d * 30 * st.current_asics) hcum1 hb1
          (fun x hx => hcov x (by simp [hx]))

theorem dirty_post_char (inv : ℚ) (cum : List ℤ) :
    ∀ (rows : List LedgerRow) (k : ℕ) (acc : ℤ),
      rows.map LedgerRow.month = List.range' (k + 1) rows.length →
      cum.drop k = cumsum acc (rows.map LedgerRow.profit) →
      dirty_post_loop cum inv rows =
        first_reach inv acc (rows.map fun r => (r.month, r.profit))
  | [], _, _, _, _ => by simp [dirty_post_loop, first_reach]
  | r :: rs, k, acc, hm, hc => by
    simp only [List.map_cons, List.length_cons, List.range'_succ, List.cons.injEq] at hm
    obtain ⟨hm1, hm2⟩ := hm
    have hk : cum[k]? = some (acc + r.profit) := by
      have hdz := List.getElem?_drop cum k 0
      rw [hc] at hdz
      simpa [cumsum] using hdz.symm
    have hdrop : cum.drop (k + 1) = cumsum (acc + r.profit) (rs.map LedgerRow.profit) := by
      have : cum.drop (k + 1) = (cum.drop k).drop 1 := by
        rw [List.drop_drop]
      rw [this, hc]
      simp [cumsum]
    simp only [dirty_post_loop, hm1, Nat.add_sub_cancel, hk, List.map_cons, first_reach]
    by_cases hle : inv ≤ ((acc + r.profit : ℤ) : ℚ)
    · rw [if_pos hle, if_pos hle]
    · rw [if_neg hle, if_neg hle]
      exact dirty_post_char inv cum rs (k + 1) (acc + r.profit) hm2 hdrop


theorem renumber_length : ∀ (l : List Scenario) (k : ℕ),
    (renumber_scenarios k l).length = l.length
  | [], _ => rfl
  | _ :: tl, k => by
    simp [renumber_scenarios, renumber_length tl (k + 12)]

theorem renumber_fields : ∀ (l : List Scenario) (k i : ℕ) (s : Scenario),
    (renumber_scenarios k l)[i]? = some s →
    s.start = k + 12 * i ∧ s.«end» = k + 12 * i + 11
  | [], _, _, _, h => by simp [renumber_scenarios] at h
  | hd :: tl, k, 0, s, h => by
    simp only [renumber_scenarios, List.getElem?_cons_zero, Option.some.injEq] at h
    subst h
    constructor <;> simp
  | hd :: tl, k, i + 1, s, h => by
    simp only [renumber_scenarios, List.getElem?_cons_succ] at h
    have := renumber_fields tl (k + 12) i s h
    omega

theorem renumber_policy : ∀ (l : List Scenario) (k i : ℕ),
    ((renumber_scenarios k l)[i]?).map (fun s => (s.reinvest, s.wallet)) =
      (l[i]?).map (fun s => (s.reinvest, s.wallet))
  | [], _, _ => rfl
  | hd :: tl, k, 0 => by simp [renumber_scenarios]
  | hd :: tl, k, i + 1 => by
    simp only [renumber_scenarios, List.getElem?_cons_succ]
    exact renumber_policy tl (k + 12) i

/-! ### The claims -/

/-- C1 (corrected): `simulate` emits exactly one ledger row per month of
`1..total_months()` that is covered by some segment, in strictly
increasing month order; a month falling in a gap of the timeline emits no
row, so the original claim (exactly `total_months()` rows starting at
month 1) holds only when the segments cover every month. -/
theorem simulate_rows_are_covered_months (p : Params) :
    (simulate p).2.map LedgerRow.month =
      (months_list p).filter (fun m => covered p.scenarios m) ∧
    List.Pairwise (· < ·) ((simulate p).2.map LedgerRow.month) := by
  refine ⟨simulate_map_month p, ?_⟩
  rw [simulate_map_month]
  have hp : List.Pairwise (· < ·) (months_list p) := by
    simp only [months_list]
    exact List.pairwise_lt_range' 1 (total_months p.scenarios)
  exact hp.filter _

/-- C1 counterexample: a valid non-empty timeline whose single segment
spans months 2–12 yields `total_months() = 12` but only 11 rows, and the
first recorded month is 2, not 1. -/
theorem simulate_gap_timeline_skips_months :
    total_months pGap1.scenarios = 12 ∧
    (simulate pGap1).2.map LedgerRow.month = [2, 3, 4, 5, 6, 7, 8, 9, 10, 11, 12] ∧
    (simulate pGap1).2.length ≠ total_months pGap1.scenarios := by decide

/-- C2 (corrected): a month in a timeline gap is not processed at all —
`active_scenario` returns `none` exactly when no segment's
`[start, end]` range contains the month, and the loop then skips the
month, leaving the state unchanged and emitting no row.  No hardcoded
default fallback segment (reinvest 50, wallet 10) exists in the
simulation loop. -/
theorem gap_month_skipped (p : Params) (m : ℕ) (st : SimState)
    (h : active_scenario p.scenarios m = none) :
    month_step p m st = (st, none) ∧
      ∀ s ∈ p.scenarios, ¬(s.start ≤ m ∧ m ≤ s.«end») := by
  refine ⟨month_step_none st h, ?_⟩
  intro s hs
  have hfind := List.find?_eq_none.mp h s hs
  simpa using hfind

/-- Witness for C2: month 1 of `pGap2` lies in a gap and is skipped. -/
theorem gap_month_skipped_witness :
    active_scenario pGap2.scenarios 1 = none ∧
      month_step pGap2 1 (init_state pGap2) = (init_state pGap2, none) :=
  ⟨by decide, (gap_month_skipped pGap2 1 (init_state pGap2) (by decide)).1⟩

/-- C2 counterexample: months 1 and 2 of `pGap2` fall in a gap; no rows
are produced for them (the claimed default fallback segment would have
produced rows for months 1 and 2). -/
theorem gap_month_no_default_segment :
    covered pGap2.scenarios 1 = false ∧
    covered pGap2.scenarios 2 = false ∧
    (simulate pGap2).2.map LedgerRow.month = [3, 4, 5, 6, 7, 8, 9, 10, 11, 12] := by decide

/-- C3 (corrected): the inline dirty break-even (full-precision rubles,
lines 349-352) and the post-pass over the truncated recorded profits in
display currency (lines 417-423) agree when the display mode is native,
the daily profit per unit is a whole number, and the timeline covers
every simulated month; the original "identical for all inputs and both
display modes" fails because of truncation. -/
theorem break_even_inline_eq_post (p : Params) (d : ℤ)
    (h1 : p.show_in_usd = false) (h2 : p.daily_profit_per_asic_rub = (d : ℚ))
    (h3 : ∀ m ∈ months_list p, covered p.scenarios m = true) :
    (simulate p).1.break_even_month = dirty_break_even_month p (simulate p).2 := by
  have hmap : (simulate p).2.map LedgerRow.month = months_list p := by
    rw [simulate_map_month]
    exact List.filter_eq_self.mpr h3
  have hlen : (simulate p).2.length = total_months p.scenarios := by
    have hcongr := congrArg List.length hmap
    simpa [months_list] using hcongr
  have hmap' : (simulate p).2.map LedgerRow.month =
      List.range' (0 + 1) (simulate p).2.length := by
    rw [hlen, hmap]; simp [months_list]
  have hinv : initial_investment p = total_investment p := by
    simp [initial_investment, total_investment, h1]
  have hinl := run_inline_char p d h1 h2 (months_list p) (init_state p) 0
    (by simp [init_state]) rfl h3
  have hpost := dirty_post_char (initial_investment p)
    (cumsum 0 ((simulate p).2.map LedgerRow.profit)) (simulate p).2 0 0 hmap' (by simp)
  rw [hinv] at hpost
  rw [dirty_break_even_month, hinv]
  exact hinl.trans hpost.symm

/-- Witness for C3: whole-number native profits make the two dirty
break-even computations agree. -/
theorem break_even_inline_eq_post_witness :
    pW3.show_in_usd = false ∧ pW3.daily_profit_per_asic_rub = ((100 : ℤ) : ℚ) ∧
    (simulate pW3).1.break_even_month = dirty_break_even_month pW3 (simulate pW3).2 :=
  ⟨by decide, by decide,
   break_even_inline_eq_post pW3 100 (by decide) (by decide) (by decide)⟩

/-- C3 counterexample: monthly profit 3000.9 against investment 9002 —
the inline pass reaches 9002.7 ≥ 9002 at month 3, while the post-pass
sums the truncated recorded profits (3000 each) and only reaches the
threshold at month 4. -/
theorem break_even_inline_ne_post :
    (simulate pC3x).1.break_even_month = some 3 ∧
    dirty_break_even_month pC3x (simulate pC3x).2 = some 4 := by decide

/-- C4 (corrected): provided the daily profit per unit is non-negative
(hence every monthly profit is non-negative), the starting fleet is
non-negative, the unit price and fx rate are positive and every
segment's wallet percentage is at most 100, the savings value left after
the purchase rule satisfies `0 ≤ savings < unit price in display
currency` on every recorded row and in the final state, the fractional
leftover being carried forward in the state; with a negative monthly
profit (possible, since the upstream profit feed can be negative) the
lower bound fails. -/
theorem savings_bounds_after_purchase (p : Params)
    (hap : 0 < p.asic_price) (hfx : 0 < p.usd_rub)
    (hd : 0 ≤ p.daily_profit_per_asic_rub) (hc : 0 ≤ p.asic_count)
    (hw : ∀ s ∈ p.scenarios, s.wallet ≤ 100) :
    (∀ r ∈ (simulate p).2, 0 ≤ r.savings ∧
        (r.savings : ℚ) < p.asic_price * (if p.show_in_usd then 1 else p.usd_rub)) ∧
    0 ≤ (simulate p).1.savings ∧
      (simulate p).1.savings < p.asic_price * p.usd_rub := by
  have h := run_savings_inv p hap hfx hd hw (months_list p) (init_state p)
    (by simp [init_state]) (by simp only [init_state]; exact mul_pos hap hfx)
    (by simpa [init_state] using hc)
  exact ⟨h.2, h.1⟩

/-- Witness for C4: positive prices and profits at `pW4` (a run that
does purchase units). -/
theorem savings_bounds_after_purchase_witness :
    ((0 : ℚ) < pW4.asic_price ∧ (0 : ℚ) < pW4.usd_rub ∧
      0 ≤ pW4.daily_profit_per_asic_rub ∧ 0 ≤ pW4.asic_count) ∧
    0 ≤ (simulate pW4).1.savings ∧
      (simulate pW4).1.savings < pW4.asic_price * pW4.usd_rub :=
  ⟨⟨by decide, by decide, by decide, by decide⟩,
   (savings_bounds_after_purchase pW4 (by decide) (by decide) (by decide) (by decide)
     (by decide)).2⟩

/-- C4 counterexample: with daily profit −1 (reinvest 100 %, wallet 0 %)
the savings accumulator ends month 1 at −30, violating `0 ≤ savings`. -/
theorem savings_negative_on_negative_profit :
    (simulate pC4neg).1.savings = -30 ∧ ¬(0 ≤ (simulate pC4neg).1.savings) := by decide

/-- C5 (confirmed): the distribution step computes
`to_reinvest = profit·reinvest/100`, `salary = profit − to_reinvest`,
`to_wallet = to_reinvest·wallet/100`, `to_units = to_reinvest −
to_wallet`, so `salary + to_wallet + to_units = profit`; and on the
worked example (1 unit, price 500 at fx 90, daily profit 100 native,
reinvest 50 %, wallet 10 %) month 1 records profit 3000, salary 1500,
reinvest 1500, wallet 150, savings 1350 with no purchase. -/
theorem profit_distribution_correct :
    (∀ profit r w : ℚ,
      split_profit profit r w =
        (profit * (r / 100), profit - profit * (r / 100),
         profit * (r / 100) * (w / 100),
         profit * (r / 100) - profit * (r / 100) * (w / 100)) ∧
      (split_profit profit r w).2.1 + (split_profit profit r w).2.2.1 +
        (split_profit profit r w).2.2.2 = profit) ∧
    (simulate pC5).2.head? = some
      { month := 1, asic := 1, income := 3000, expenses := 0, profit := 3000,
        salary := 1500, reinvest := 1500, to_wallet := 150, savings := 1350,
        wallet_btc := 1 / 30000 } := by
  constructor
  · intro profit r w
    refine ⟨rfl, ?_⟩
    simp only [split_profit]
    ring
  · decide

/-- C6 (confirmed): after removing any valid index the remaining
segments are renumbered — segment `i` spans exactly months
`12·i + 1 .. 12·i + 12` (so segment 0 starts at month 1, each segment
starts right after the previous one and every span is forced back to 12
months) while each segment keeps its reinvest/wallet percentages. -/
theorem remove_scenario_renumbers (scenarios : List Scenario) (index : ℕ)
    (h : index < scenarios.length) :
    (remove_scenario scenarios index).length = scenarios.length - 1 ∧
    (∀ (i : ℕ) (s : Scenario), (remove_scenario scenarios index)[i]? = some s →
        s.start = 12 * i + 1 ∧ s.«end» = 12 * i + 12) ∧
    (∀ i : ℕ, ((remove_scenario scenarios index)[i]?).map (fun s => (s.reinvest, s.wallet)) =
        ((scenarios.eraseIdx index)[i]?).map (fun s => (s.reinvest, s.wallet))) := by
  refine ⟨?_, ?_, ?_⟩
  · simp only [remove_scenario]
    rw [renumber_length, List.length_eraseIdx, if_pos h]
  · intro i s hs
    have hf := renumber_fields (scenarios.eraseIdx index) 1 i s hs
    omega
  · intro i
    exact renumber_policy (scenarios.eraseIdx index) 1 i

/-- Witness for C6: removing segment 0 of the three-segment `scs3`
(whose second segment spans 18 months) renumbers the former segment 1 to
start 1, end 12. -/
theorem remove_scenario_renumbers_witness :
    (0 : ℕ) < scs3.length ∧ (remove_scenario scs3 0).length = 2 ∧
    ((⟨1, 12, 20, 5⟩ : Scenario).start = 12 * 0 + 1 ∧
      (⟨1, 12, 20, 5⟩ : Scenario).«end» = 12 * 0 + 12) := by
  refine ⟨by decide, ?_, ?_⟩
  · have hl := (remove_scenario_renumbers scs3 0 (by decide)).1
    simpa using hl
  · exact (remove_scenario_renumbers scs3 0 (by decide)).2.1 0 ⟨1, 12, 20, 5⟩ (by decide)

/-- C7 (corrected): the handler performs no input validation and raises
no `NonPositiveInput`-style error — non-positive values are excluded
only by the widgets' `min_value` settings.  Even a unit count at or
below 0 (strictly below the widget minimum `asic_count_min = 1`) is
accepted: the monthly loop runs and produces its usual rows. -/
theorem no_nonpositive_input_rejection (p : Params) (h : p.asic_count ≤ 0) :
    p.asic_count < asic_count_min ∧
    (simulate p).2.map LedgerRow.month =
      (months_list p).filter (fun m => covered p.scenarios m) := by
  refine ⟨?_, simulate_map_month p⟩
  simp only [asic_count_min]
  omega

/-- Witness for C7: unit count 0 still yields all 12 monthly rows. -/
theorem no_nonpositive_input_rejection_witness :
    pC7.asic_count ≤ 0 ∧
    (simulate pC7).2.map LedgerRow.month = [1, 2, 3, 4, 5, 6, 7, 8, 9, 10, 11, 12] := by
  refine ⟨by decide, ?_⟩
  rw [(no_nonpositive_input_rejection pC7 (by decide)).2]
  decide

/-- C7 counterexample: unit count 0 (≤ 0) is not rejected before the
loop — the simulation returns a full 12-row result instead of an
error. -/
theorem simulate_runs_with_zero_count :
    pC7.asic_count = 0 ∧ (simulate pC7).2.length = 12 := by decide

/-- C8 (confirmed): across the emitted ledger rows the recorded fleet
size never decreases — units are only ever added by the purchase rule,
never removed. -/
theorem fleet_size_monotone (p : Params) :
    List.Chain' (· ≤ ·) ((simulate p).2.map LedgerRow.asic) :=
  (run_chain_asics p (months_list p) (init_state p)).tail

/-- C9 (confirmed): saving under a name already present in the store
fails non-fatally with the duplicate-name error, leaving the store
unchanged (the handler writes nothing on the error path), while a fresh
non-empty name appends exactly that one entry. -/
theorem save_result_rejects_duplicates (store : List (String × SavedResult))
    (name : String) (entry : SavedResult) (hne : py_strip name ≠ "") :
    ((store.map Prod.fst).contains name = true →
      save_result store name entry =
        Except.error "Результат с таким названием уже существует!") ∧
    ((store.map Prod.fst).contains name = false →
      save_result store name entry = Except.ok (store ++ [(name, entry)])) := by
  constructor <;> intro h
  · simp only [save_result]
    rw [if_pos hne, if_pos h]
  · simp only [save_result]
    rw [if_pos hne, if_neg (by rw [h]; exact Bool.false_ne_true)]

/-- Witness for C9: against a store holding «Результат 1», saving that
name errors and saving «Результат 2» appends one entry. -/
theorem save_result_rejects_duplicates_witness :
    (py_strip "Результат 1" ≠ "" ∧
      save_result store0 "Результат 1" entry0 =
        Except.error "Результат с таким названием уже существует!") ∧
    (py_strip "Результат 2" ≠ "" ∧
      save_result store0 "Результат 2" entry0 =
        Except.ok (store0 ++ [("Результат 2", entry0)])) :=
  ⟨⟨by decide,
    (save_result_rejects_duplicates store0 "Результат 1" entry0 (by decide)).1 (by decide)⟩,
   ⟨by decide,
    (save_result_rejects_duplicates store0 "Результат 2" entry0 (by decide)).2 (by decide)⟩⟩

/-- C10 (confirmed): with a non-negative daily profit and starting
fleet, positive fx and spot prices, and segment percentages within
0–100, the recorded cumulative wallet BTC balance never decreases from
one ledger row to the next (each month adds
`to_wallet / fx / spot ≥ 0`; nothing is withdrawn). -/
theorem wallet_btc_monotone (p : Params)
    (hd : 0 ≤ p.daily_profit_per_asic_rub) (hc : 0 ≤ p.asic_count)
    (hfx : 0 < p.usd_rub) (hbtc : 0 < p.btc_usd)
    (_hpct : ∀ s ∈ p.scenarios, s.reinvest ≤ 100 ∧ s.wallet ≤ 100) :
    List.Chain' (· ≤ ·) ((simulate p).2.map LedgerRow.wallet_btc) :=
  (run_chain_wallet p hd hfx hbtc (months_list p) (init_state p)
    (by simpa [init_state] using hc)).tail

/-- Witness for C10: the two-segment positive-economics run `pW10`. -/
theorem wallet_btc_monotone_witness :
    (0 ≤ pW10.daily_profit_per_asic_rub ∧ 0 ≤ pW10.asic_count ∧
      0 < pW10.usd_rub ∧ 0 < pW10.btc_usd) ∧
    List.Chain' (· ≤ ·) ((simulate pW10).2.map LedgerRow.wallet_btc) :=
  ⟨⟨by decide, by decide, by decide, by decide⟩,
   wallet_btc_monotone pW10 (by decide) (by decide) (by decide) (by decide) (by decide)⟩
